import Mathlib

/-!
# Verification of the HRMS record-consistency layer

A shallow embedding of the employee registry and attendance ledger of the
`hrms-backend` repository (SQLAlchemy models in `app/models`, service layer in
`app/services`, pydantic schemas in `app/schemas`), together with proofs about
the claims of its specification.

Modelling conventions:
* Calendar dates and timestamps are `Nat` (ordinal days / abstract instants).
* The relational store is a `DBState`: lists of rows in insertion order plus
  the autoincrement counters of the two tables, and the last observed wall
  clock `now` (used to express that time never runs backwards).
* Each service operation is a function `... → Except HRMSException DBState`.
  A `.error` result models a raised exception after `db.rollback()`: the
  store keeps its previous state.
* Every writing operation takes a snapshot state `snap` (what the session's
  reads see) and a current state `cur` (what the commit is applied against).
  The sequential semantics is `snap = cur`; giving the pre-checks a stale
  `snap` models two callers racing past the uniqueness read, as described in
  §5 of the specification (check-then-insert with commit-time fallback).
* Python floats are modelled by exact rationals, Python's `round(x, 2)`
  (banker's rounding) by `pyRound2`, Python `str.strip`/`str.lower` by
  `pyStrip`/`pyLower` (the repository only handles ASCII data).
-/

instance {ε α : Type} [DecidableEq ε] [DecidableEq α] : DecidableEq (Except ε α) := fun x y =>
  match x, y with
  | .ok a, .ok b =>
    if h : a = b then .isTrue (by rw [h]) else .isFalse (by simpa using h)
  | .error a, .error b =>
    if h : a = b then .isTrue (by rw [h]) else .isFalse (by simpa using h)
  | .ok _, .error _ => .isFalse (by simp)
  | .error _, .ok _ => .isFalse (by simp)

/-- ASCII lower-casing of one character, as Python's `str.lower` acts on
the ASCII data this repository handles. -/
def lowerChar (c : Char) : Char :=
  if 65 ≤ c.toNat ∧ c.toNat ≤ 90 then Char.ofNat (c.toNat + 32) else c

/-- Python's `str.lower` (ASCII fragment), structurally recursive so that
concrete calls evaluate inside the kernel. -/
def pyLower (s : String) : String := ⟨s.data.map lowerChar⟩

/-- Python's `str.strip`: remove leading and trailing whitespace. -/
def pyStrip (s : String) : String :=
  ⟨((s.data.dropWhile Char.isWhitespace).reverse.dropWhile Char.isWhitespace).reverse⟩

/-- Error kinds raised by the service layer, from `app/utils/exceptions.py`.
`employeeNotFound` is `EmployeeNotFoundException` (the spec's `NotFound` /
`EmployeeNotFound`), `duplicateEmployee` is `DuplicateEmployeeException`
(the spec's `DuplicateIdentity`), `duplicateAttendance` is
`DuplicateAttendanceException` (the spec's `DuplicateRecord`), and
`invalidDate` is `InvalidDateException`. The raw storage error
(`sqlalchemy.exc.IntegrityError`) deliberately does not appear here: the
services never let it escape. -/
inductive HRMSException where
  | employeeNotFound
  | duplicateEmployee
  | duplicateAttendance
  | invalidDate
deriving DecidableEq, Repr

/-- A row of the `employees` table, from `app/models/employee.py`:
`id` is the autoincrement primary key, `employee_id` the caller-supplied
unique code (e.g. "EMP001"), and `email` is stored lower-cased. -/
structure Employee where
  id : Nat
  employee_id : String
  full_name : String
  email : String
  department : String
  created_at : Nat
  updated_at : Nat
deriving DecidableEq, Repr

/-- A row of the `attendance` table, from `app/models/attendance.py`:
`employee_id` is the foreign key to `employees.id` (ON DELETE CASCADE),
and `status` is the stored string, constrained to "Present"/"Absent". -/
structure Attendance where
  id : Nat
  employee_id : Nat
  date : Nat
  status : String
  created_at : Nat
deriving DecidableEq, Repr

/-- The shared relational store: rows in insertion order, the two
autoincrement counters, and the last observed wall clock (`now` is not a
column; it records the `date.today()` / `datetime.utcnow()` instant of the
most recent write, letting us state that the clock is monotone). -/
structure DBState where
  employees : List Employee
  attendance : List Attendance
  next_emp_id : Nat
  next_att_id : Nat
  now : Nat
deriving DecidableEq, Repr

/-- The empty database, before any operation has run. -/
def initialState : DBState := ⟨[], [], 1, 1, 0⟩

/-- The uniqueness constraints of the `employees` table
(`app/models/employee.py`): primary key `id`, `unique=True` on
`employee_id` and on `email`.  The storage engine checks exactly this at
commit time. -/
def employeesTableOk (l : List Employee) : Prop :=
  l.Pairwise fun a b => a.id ≠ b.id ∧ a.employee_id ≠ b.employee_id ∧ a.email ≠ b.email

instance (l : List Employee) : Decidable (employeesTableOk l) :=
  List.instDecidablePairwise l

/-- The constraints of the `attendance` table (`app/models/attendance.py`):
primary key `id`, `UniqueConstraint("employee_id", "date")`
(`uq_employee_date`) and `CheckConstraint status IN ('Present','Absent')`
(`ck_attendance_status`). -/
def attendanceTableOk (l : List Attendance) : Prop :=
  (l.Pairwise fun a b => a.id ≠ b.id ∧ ¬(a.employee_id = b.employee_id ∧ a.date = b.date)) ∧
  ∀ a ∈ l, a.status = "Present" ∨ a.status = "Absent"

instance (l : List Attendance) : Decidable (attendanceTableOk l) :=
  inferInstanceAs (Decidable
    ((l.Pairwise fun a b : Attendance =>
        a.id ≠ b.id ∧ ¬(a.employee_id = b.employee_id ∧ a.date = b.date)) ∧
     ∀ a ∈ l, a.status = "Present" ∨ a.status = "Absent"))

/-- Payload of `EmployeeService.create_employee`: an `EmployeeCreate`
schema object (`app/schemas/employee.py`), i.e. data that has already
passed the pydantic field validation. -/
structure EmployeeCreate where
  employee_id : String
  full_name : String
  email : String
  department : String
deriving DecidableEq, Repr

/-- Payload of `EmployeeService.update_employee`: an `EmployeeUpdate`
schema object; every field optional, `none` meaning unset or `None`
(the service skips both alike). -/
structure EmployeeUpdate where
  full_name : Option String
  email : Option String
  department : Option String
deriving DecidableEq, Repr

/-- `AttendanceStatus` enum of `app/schemas/attendance.py`. -/
inductive AttendanceStatus where
  | Present
  | Absent
deriving DecidableEq, Repr

/-- `.value` of the `AttendanceStatus` enum member. -/
def AttendanceStatus.value : AttendanceStatus → String
  | .Present => "Present"
  | .Absent => "Absent"

/-- Payload of `AttendanceService.mark_attendance`: an `AttendanceCreate`
schema object. -/
structure AttendanceCreate where
  employee_id : Nat
  attendance_date : Nat
  status : AttendanceStatus
deriving DecidableEq, Repr

/-- Result shape of `AttendanceService.calculate_present_days`
(the `AttendanceSummary` schema). -/
structure AttendanceSummary where
  employee_id : Nat
  employee_name : String
  total_days : Nat
  present_days : Nat
  absent_days : Nat
  attendance_percentage : ℚ
deriving DecidableEq, Repr

/-- `EmployeeService.get_employee_by_employee_id`: first row whose
`employee_id` column equals the probe, compared exactly. -/
def get_employee_by_employee_id (s : DBState) (code : String) : Option Employee :=
  s.employees.find? fun e => e.employee_id == code

/-- `EmployeeService.get_employee_by_email`: first row whose `email`
column equals the lower-cased probe (`Employee.email == email.lower()`). -/
def get_employee_by_email (s : DBState) (email : String) : Option Employee :=
  s.employees.find? fun e => e.email == pyLower email

/-- The query inside `EmployeeService.get_employee_by_id`:
first row with the given primary key. -/
def find_employee_by_id (s : DBState) (eid : Nat) : Option Employee :=
  s.employees.find? fun e => e.id == eid

/-- `EmployeeService.get_employee_by_id`: raises
`EmployeeNotFoundException` when the id is absent. -/
def get_employee_by_id (s : DBState) (eid : Nat) : Except HRMSException Employee :=
  match find_employee_by_id s eid with
  | none => .error .employeeNotFound
  | some e => .ok e

/-- The row `db.add`ed by `create_employee`: next autoincrement id, the
supplied code and name, the e-mail lower-cased
(`email=employee_data.email.lower()`), and both timestamps set to the
creation instant. -/
def newEmployee (cur : DBState) (d : EmployeeCreate) (t : Nat) : Employee :=
  ⟨cur.next_emp_id, d.employee_id, d.full_name, pyLower d.email, d.department, t, t⟩

/-- `EmployeeService.create_employee` (lines 28–74 of
`app/services/employee_service.py`): pre-check `employee_id` then `email`
against the session's reads (`snap`), build the row with the email
lower-cased, then `db.add`/`db.commit`; an `IntegrityError` at commit
(checked against `cur`) is rolled back and re-raised as
`DuplicateEmployeeException`. Sequential calls use `snap = cur`. -/
def create_employee (snap cur : DBState) (d : EmployeeCreate) (t : Nat) :
    Except HRMSException DBState :=
  if (get_employee_by_employee_id snap d.employee_id).isSome then
    .error .duplicateEmployee
  else if (get_employee_by_email snap d.email).isSome then
    .error .duplicateEmployee
  else
    let l := cur.employees ++ [newEmployee cur d t]
    if employeesTableOk l then
      .ok { cur with employees := l, next_emp_id := cur.next_emp_id + 1, now := t }
    else
      .error .duplicateEmployee

/-- The employee row after `update_employee` applies the supplied fields
(`setattr(employee, field, value)` for every non-`None` value) and the
flush commits: `updated_at` takes the new instant only when some column
value actually changed (SQLAlchemy emits no UPDATE — and `onupdate` does
not fire — when every set value equals the stored one). -/
def appliedUpdate (emp : Employee) (d : EmployeeUpdate) (t : Nat) : Employee :=
  let fn := d.full_name.getD emp.full_name
  let em := d.email.getD emp.email
  let dp := d.department.getD emp.department
  let changed : Bool := fn != emp.full_name || em != emp.email || dp != emp.department
  { emp with full_name := fn, email := em, department := dp,
             updated_at := if changed then t else emp.updated_at }

/-- `EmployeeService.update_employee` (lines 165–211): load the row,
pre-check an email conflict with a *different* id, apply the supplied
fields, commit; an `IntegrityError` is rolled back and re-raised as
`DuplicateEmployeeException`.  The `updated_at` column has
`onupdate=datetime.utcnow` (`app/models/employee.py`), which fires only
when the flush actually emits an UPDATE, i.e. only when some column value
net-changed — modelled by the `changed` flag. -/
def update_employee (snap cur : DBState) (eid : Nat) (d : EmployeeUpdate) (t : Nat) :
    Except HRMSException DBState :=
  match find_employee_by_id snap eid with
  | none => .error .employeeNotFound
  | some emp =>
    let conflict : Bool :=
      match d.email with
      | some v =>
        match get_employee_by_email snap v with
        | some ex => ex.id != eid
        | none => false
      | none => false
    if conflict then .error .duplicateEmployee
    else
      let emp' := appliedUpdate emp d t
      let l := cur.employees.map fun e => if e.id == eid then emp' else e
      if employeesTableOk l then
        .ok { cur with employees := l, now := t }
      else
        .error .duplicateEmployee

/-- `EmployeeService.delete_employee` (lines 213–235): load the row
(raising `EmployeeNotFoundException` if absent) then delete it; the ORM
relationship `cascade="all, delete-orphan"` together with the foreign key
`ondelete="CASCADE"` removes every attendance row of that employee in the
same transaction. -/
def delete_employee (s : DBState) (eid : Nat) : Except HRMSException DBState :=
  match find_employee_by_id s eid with
  | none => .error .employeeNotFound
  | some _ =>
    .ok { s with employees := s.employees.filter fun e => e.id != eid,
                 attendance := s.attendance.filter fun a => a.employee_id != eid }

/-- `AttendanceService.check_duplicate_attendance`: first attendance row
of the employee on the date. -/
def check_duplicate_attendance (s : DBState) (eid : Nat) (d : Nat) : Option Attendance :=
  s.attendance.find? fun a => a.employee_id == eid && a.date == d

/-- The row `db.add`ed by `mark_attendance`: next autoincrement id, the
referenced employee, the date, the enum's stored string value, and the
creation instant. -/
def newAttendance (cur : DBState) (d : AttendanceCreate) (today : Nat) : Attendance :=
  ⟨cur.next_att_id, d.employee_id, d.attendance_date, d.status.value, today⟩

/-- `AttendanceService.mark_attendance` (lines 31–98 of
`app/services/attendance_service.py`): reject a future date, then a
missing employee, then an existing `(employee, date)` record — all read
from `snap` — then insert and commit against `cur`; an `IntegrityError`
at commit is rolled back and re-raised as
`DuplicateAttendanceException`.  `today` is `date.today()`. -/
def mark_attendance (snap cur : DBState) (d : AttendanceCreate) (today : Nat) :
    Except HRMSException DBState :=
  if today < d.attendance_date then
    .error .invalidDate
  else if (find_employee_by_id snap d.employee_id).isNone then
    .error .employeeNotFound
  else if (check_duplicate_attendance snap d.employee_id d.attendance_date).isSome then
    .error .duplicateAttendance
  else
    let l := cur.attendance ++ [newAttendance cur d today]
    if attendanceTableOk l then
      .ok { cur with attendance := l, next_att_id := cur.next_att_id + 1, now := today }
    else
      .error .duplicateAttendance

/-- Descending order on employee primary keys, the `order_by
(Employee.id.desc())` of the employee list route. -/
def empIdGe (a b : Employee) : Prop := b.id ≤ a.id

instance : DecidableRel empIdGe := fun _ _ => Nat.decLe _ _

instance : IsTotal Employee empIdGe :=
  ⟨fun a b => (Nat.le_total b.id a.id).symm.symm⟩

instance : IsTrans Employee empIdGe :=
  ⟨fun _ _ _ hab hbc => Nat.le_trans hbc hab⟩

/-- Descending order on attendance dates, the `order_by
(Attendance.date.desc())` of the per-employee query. -/
def attDateGe (a b : Attendance) : Prop := b.date ≤ a.date

instance : DecidableRel attDateGe := fun _ _ => Nat.decLe _ _

/-- `AttendanceService.get_attendance_by_employee` (the spec's
`byEmployee`): raises `EmployeeNotFoundException` when the employee is
absent, otherwise the employee's records ordered by date descending. -/
def get_attendance_by_employee (s : DBState) (eid : Nat) :
    Except HRMSException (List Attendance) :=
  if (find_employee_by_id s eid).isNone then .error .employeeNotFound
  else .ok (List.insertionSort attDateGe (s.attendance.filter fun a => a.employee_id == eid))

/-- Case-insensitive substring match, the `ilike(f"%{name}%")` filter of
`EmployeeService.search_employees` (for patterns without LIKE
metacharacters). -/
def containsCI (s pat : String) : Bool :=
  decide ((pyLower pat).data <:+: (pyLower s).data)

/-- `EmployeeService.search_employees`: optional exact department filter,
optional case-insensitive name substring filter; Python's truthiness makes
an empty-string filter a no-op. -/
def search_employees (s : DBState) (department : Option String) (name : Option String) :
    List Employee :=
  let l₁ := match department with
    | some dep => if dep = "" then s.employees else s.employees.filter fun e => e.department == dep
    | none => s.employees
  match name with
  | some n => if n = "" then l₁ else l₁.filter fun e => containsCI e.full_name n
  | none => l₁

/-- The unfiltered branch of the `GET /api/employees` route
(`app/routes/employee.py`, lines 81–107): total count of all rows, and the
page `ORDER BY id DESC OFFSET skip LIMIT limit`. -/
def employeesPage (s : DBState) (skip limit : Nat) : List Employee × Nat :=
  (((List.insertionSort empIdGe s.employees).drop skip).take limit, s.employees.length)

/-- `get_all_employees` route handler: with a (truthy) department filter it
delegates to `search_employees` and counts the result, otherwise it returns
the id-descending page together with the full table count. -/
def get_all_employees_route (s : DBState) (skip limit : Nat) (department : Option String) :
    List Employee × Nat :=
  match department with
  | some dep =>
    if dep = "" then employeesPage s skip limit
    else
      let l := search_employees s (some dep) none
      (l, l.length)
  | none => employeesPage s skip limit

/-- Round a rational to the nearest integer, ties to even — the rounding
mode of Python's builtin `round`. -/
def roundHalfEven (q : ℚ) : ℤ :=
  let f : ℤ := ⌊q⌋
  let r : ℚ := q - f
  if r < 1/2 then f
  else if 1/2 < r then f + 1
  else if f % 2 = 0 then f else f + 1

/-- Python's `round(x, 2)` on exact rationals. -/
def pyRound2 (q : ℚ) : ℚ := (roundHalfEven (q * 100) : ℚ) / 100

/-- `AttendanceService.calculate_present_days` (lines 232–275), the spec's
`summary`: raises `EmployeeNotFoundException` when the employee is absent;
otherwise `total_days` is the number of the employee's records,
`present_days` counts status "Present" (`sum(1 for r in records if
r.status == "Present")`), `absent_days = total_days - present_days`, and
the percentage is `round(present/total*100, 2)` for a nonempty ledger,
else `0.0`.  A pure function of the state. -/
def calculate_present_days (s : DBState) (eid : Nat) :
    Except HRMSException AttendanceSummary :=
  match find_employee_by_id s eid with
  | none => .error .employeeNotFound
  | some emp =>
    let records := s.attendance.filter fun a => a.employee_id == eid
    let total := records.length
    let present := records.countP fun r => r.status == "Present"
    let absent := total - present
    let pct : ℚ := if 0 < total then pyRound2 ((present : ℚ) / (total : ℚ) * 100) else 0
    .ok ⟨eid, emp.full_name, total, present, absent, pct⟩


/-- Characters allowed in the local part of the email pattern
`^[a-zA-Z0-9._%+-]+@[a-zA-Z0-9.-]+\.[a-zA-Z]{2,}$` of
`app/schemas/employee.py`. -/
def localChar (c : Char) : Bool :=
  c.isAlphanum || c = '.' || c = '_' || c = '%' || c = '+' || c = '-'

/-- Characters allowed in the domain part of the email pattern. -/
def domainChar (c : Char) : Bool :=
  c.isAlphanum || c = '.' || c = '-'

/-- Split a character list at every occurrence of `sep` (like Python's
`str.split(sep)`); structurally recursive. -/
def splitOnChar (sep : Char) : List Char → List (List Char)
  | [] => [[]]
  | c :: cs =>
    match splitOnChar sep cs, decide (c = sep) with
    | r, true => [] :: r
    | [], false => [[c]]
    | h :: t, false => (c :: h) :: t

/-- The anchored regex `^[a-zA-Z0-9._%+-]+@[a-zA-Z0-9.-]+\.[a-zA-Z]{2,}$`:
exactly one `@`; a nonempty local part over its character class; after the
`@`, a nonempty domain over `[a-zA-Z0-9.-]` followed by a final dot and a
TLD of at least two letters.  Because the TLD admits only letters, the
regex can match only by splitting at the last dot. -/
def emailMatches (s : String) : Bool :=
  match splitOnChar '@' s.data with
  | [lp, rest] =>
    !lp.isEmpty && lp.all localChar &&
    (match (splitOnChar '.' rest).reverse with
     | tld :: d₁ :: ds =>
       let dom := List.intercalate ['.'] ((d₁ :: ds).reverse)
       decide (2 ≤ tld.length) && tld.all (·.isAlpha) && !dom.isEmpty && dom.all domainChar
     | _ => false)
  | _ => false

/-- `EmployeeBase.validate_employee_id` under the `Field(min_length=1,
max_length=50)` bounds (pydantic applies the field constraints to the raw
value before the `after`-mode validator runs): strip, reject blank. -/
def employeeBase_validate_employee_id (v : String) : Except String String :=
  if v.length < 1 ∨ 50 < v.length then .error "string length out of range"
  else
    let t := pyStrip v
    if t = "" then .error "Employee ID cannot be empty" else .ok t

/-- `EmployeeBase.validate_full_name` under `Field(min_length=2,
max_length=100)`: strip, reject blank, reject fewer than 2 characters
after stripping. -/
def employeeBase_validate_full_name (v : String) : Except String String :=
  if v.length < 2 ∨ 100 < v.length then .error "string length out of range"
  else
    let t := pyStrip v
    if t = "" then .error "Full name cannot be empty"
    else if t.length < 2 then .error "Full name must be at least 2 characters"
    else .ok t

/-- `EmployeeBase.validate_email` under `Field(max_length=255)`: strip and
lower-case, reject blank, then match the address regex. -/
def employeeBase_validate_email (v : String) : Except String String :=
  if 255 < v.length then .error "string length out of range"
  else
    let t := pyLower (pyStrip v)
    if t = "" then .error "Email cannot be empty"
    else if emailMatches t then .ok t
    else .error "Invalid email format"

/-- `EmployeeBase.validate_department` under `Field(min_length=1,
max_length=100)`: strip, reject blank. -/
def employeeBase_validate_department (v : String) : Except String String :=
  if v.length < 1 ∨ 100 < v.length then .error "string length out of range"
  else
    let t := pyStrip v
    if t = "" then .error "Department cannot be empty" else .ok t

/-- `EmployeeUpdate.full_name`: only `Field(min_length=2, max_length=100)`
on the raw value — the class declares no validator for it, so nothing is
stripped or re-checked after stripping. -/
def employeeUpdate_validate_full_name (v : String) : Except String String :=
  if v.length < 2 ∨ 100 < v.length then .error "string length out of range" else .ok v

/-- `EmployeeUpdate.department`: only `Field(min_length=1, max_length=100)`
on the raw value — no validator. -/
def employeeUpdate_validate_department (v : String) : Except String String :=
  if v.length < 1 ∨ 100 < v.length then .error "string length out of range" else .ok v

/-- `EmployeeUpdate.validate_email` under `Field(max_length=255)`: strip
and lower-case; a value blank after stripping becomes `None` (treated as
not supplied) instead of an error; otherwise match the regex. -/
def employeeUpdate_validate_email (v : String) : Except String (Option String) :=
  if 255 < v.length then .error "string length out of range"
  else
    let t := pyLower (pyStrip v)
    if t = "" then .ok none
    else if emailMatches t then .ok (some t)
    else .error "Invalid email format"

/-- `AttendanceBase.validate_date_not_future` of
`app/schemas/attendance.py`. -/
def validate_date_not_future (today d : Nat) : Except String Nat :=
  if today < d then .error "Attendance date cannot be in the future" else .ok d


/-- One committed writing operation of the core, moving the shared store
from `s` to `s'`.  Each constructor packages the sequential run
(`snap = cur = s`) of the corresponding service function at a wall-clock
instant `t` not earlier than the last observed one.  `create` and `update`
additionally record the guarantee of the pydantic schema layer that any
e-mail reaching the service has already been lower-cased
(`EmployeeBase.validate_email` / `EmployeeUpdate.validate_email`). -/
inductive Step : DBState → DBState → Prop where
  | create {s : DBState} (d : EmployeeCreate) (t : Nat) {s' : DBState}
      (ht : s.now ≤ t) (hd : pyLower d.email = d.email)
      (h : create_employee s s d t = .ok s') : Step s s'
  | update {s : DBState} (eid : Nat) (d : EmployeeUpdate) (t : Nat) {s' : DBState}
      (ht : s.now ≤ t) (hd : ∀ v, d.email = some v → pyLower v = v)
      (h : update_employee s s eid d t = .ok s') : Step s s'
  | delete {s : DBState} (eid : Nat) {s' : DBState}
      (h : delete_employee s eid = .ok s') : Step s s'
  | mark {s : DBState} (d : AttendanceCreate) (t : Nat) {s' : DBState}
      (ht : s.now ≤ t)
      (h : mark_attendance s s d t = .ok s') : Step s s'

/-- States reachable from the empty store by committed operations. -/
inductive Reachable : DBState → Prop where
  | init : Reachable initialState
  | step {s s' : DBState} : Reachable s → Step s s' → Reachable s'

/-- The global invariant of reachable stores:
employee rows are listed in creation order with strictly increasing ids
below the autoincrement counter; employee codes and (lower-cased stored)
e-mails are unique; attendance rows have unique `(employee_id, date)`
pairs, ids below the counter, reference an existing employee and carry no
future date. -/
structure StoreInv (s : DBState) : Prop where
  empAsc : s.employees.Pairwise fun a b => a.id < b.id
  empLt : ∀ e ∈ s.employees, e.id < s.next_emp_id
  codeUnique : s.employees.Pairwise fun a b => a.employee_id ≠ b.employee_id
  emailUnique : s.employees.Pairwise fun a b => a.email ≠ b.email
  emailLower : ∀ e ∈ s.employees, pyLower e.email = e.email
  attPair : s.attendance.Pairwise fun a b => ¬(a.employee_id = b.employee_id ∧ a.date = b.date)
  attLt : ∀ a ∈ s.attendance, a.id < s.next_att_id
  refInt : ∀ a ∈ s.attendance, ∃ e ∈ s.employees, e.id = a.employee_id
  dateLeNow : ∀ a ∈ s.attendance, a.date ≤ s.now

/-- "At most one attendance record per employee per calendar day" as a
count over the raw table. -/
def AttendanceUnique (s : DBState) : Prop :=
  ∀ eid d, (s.attendance.countP fun a => a.employee_id == eid && a.date == d) ≤ 1

/-- Fixture: the example create of §8 of the specification. -/
def exCreate1 : EmployeeCreate :=
  ⟨"EMP001", "John Doe", "john.doe@company.com", "Engineering"⟩

/-- Fixture: a second create whose code differs from `exCreate1` only in
letter case. -/
def exCreate2 : EmployeeCreate :=
  ⟨"emp001", "Jane Roe", "jane.roe@company.com", "Finance"⟩

/-- The store after `exCreate1` at instant 1. -/
def exState1 : DBState :=
  ⟨[⟨1, "EMP001", "John Doe", "john.doe@company.com", "Engineering", 1, 1⟩], [], 2, 1, 1⟩

/-- Fixture: marking employee 1 present on day 2. -/
def exMark1 : AttendanceCreate := ⟨1, 2, .Present⟩

/-- The store after `exCreate1` and then `exMark1` at instant 2. -/
def exState2 : DBState :=
  ⟨[⟨1, "EMP001", "John Doe", "john.doe@company.com", "Engineering", 1, 1⟩],
   [⟨1, 1, 2, "Present", 2⟩], 2, 2, 2⟩

/-- The store after `exCreate1` and then `exCreate2`, holding two
employees whose codes differ only in letter case. -/
def exState10 : DBState :=
  ⟨[⟨1, "EMP001", "John Doe", "john.doe@company.com", "Engineering", 1, 1⟩,
    ⟨2, "emp001", "Jane Roe", "jane.roe@company.com", "Finance", 1, 1⟩], [], 3, 1, 1⟩

lemma create_employee_ok {snap cur : DBState} {d : EmployeeCreate} {t : Nat} {s' : DBState}
    (h : create_employee snap cur d t = .ok s') :
    get_employee_by_employee_id snap d.employee_id = none ∧
    get_employee_by_email snap d.email = none ∧
    employeesTableOk (cur.employees ++ [newEmployee cur d t]) ∧
    s' = { cur with
           employees := cur.employees ++ [newEmployee cur d t],
           next_emp_id := cur.next_emp_id + 1, now := t } := by
  unfold create_employee at h
  split at h
  · exact absurd h (by simp)
  next hcode =>
    split at h
    · exact absurd h (by simp)
    next hemail =>
      simp only [] at h
      split at h
      next hok =>
        simp only [Except.ok.injEq] at h
        exact ⟨Option.not_isSome_iff_eq_none.mp hcode,
               Option.not_isSome_iff_eq_none.mp hemail, hok, h.symm⟩
      · exact absurd h (by simp)

lemma delete_employee_ok {s : DBState} {eid : Nat} {s' : DBState}
    (h : delete_employee s eid = .ok s') :
    (∃ emp, find_employee_by_id s eid = some emp) ∧
    s' = { s with
           employees := s.employees.filter fun e => e.id != eid,
           attendance := s.attendance.filter fun a => a.employee_id != eid } := by
  unfold delete_employee at h
  cases hfind : find_employee_by_id s eid with
  | none => rw [hfind] at h; exact absurd h (by simp)
  | some emp =>
    rw [hfind] at h
    simp only [Except.ok.injEq] at h
    exact ⟨⟨emp, rfl⟩, h.symm⟩

lemma mark_attendance_ok {snap cur : DBState} {d : AttendanceCreate} {today : Nat} {s' : DBState}
    (h : mark_attendance snap cur d today = .ok s') :
    d.attendance_date ≤ today ∧
    (∃ e, find_employee_by_id snap d.employee_id = some e) ∧
    check_duplicate_attendance snap d.employee_id d.attendance_date = none ∧
    attendanceTableOk (cur.attendance ++ [newAttendance cur d today]) ∧
    s' = { cur with
           attendance := cur.attendance ++ [newAttendance cur d today],
           next_att_id := cur.next_att_id + 1, now := today } := by
  unfold mark_attendance at h
  split at h
  · exact absurd h (by simp)
  next hdate =>
    split at h
    · exact absurd h (by simp)
    next hemp =>
      split at h
      · exact absurd h (by simp)
      next hdup =>
        simp only [] at h
        split at h
        next hok =>
          simp only [Except.ok.injEq] at h
          refine ⟨Nat.le_of_not_lt hdate, ?_, Option.not_isSome_iff_eq_none.mp hdup, hok, h.symm⟩
          cases hfind : find_employee_by_id snap d.employee_id with
          | none => rw [hfind] at hemp; exact absurd rfl hemp
          | some e => exact ⟨e, rfl⟩
        · exact absurd h (by simp)

lemma update_employee_ok {snap cur : DBState} {eid : Nat} {d : EmployeeUpdate} {t : Nat}
    {s' : DBState} (h : update_employee snap cur eid d t = .ok s') :
    ∃ emp, find_employee_by_id snap eid = some emp ∧
      employeesTableOk (cur.employees.map fun e =>
        if e.id == eid then appliedUpdate emp d t else e) ∧
      s' = { cur with
             employees := cur.employees.map fun e => if e.id == eid then appliedUpdate emp d t else e,
             now := t } := by
  unfold update_employee at h
  cases hfind : find_employee_by_id snap eid with
  | none => rw [hfind] at h; exact absurd h (by simp)
  | some emp =>
    rw [hfind] at h
    simp only at h
    split at h
    · exact absurd h (by simp)
    · split at h
      next hok =>
        simp only [Except.ok.injEq] at h
        exact ⟨emp, rfl, hok, h.symm⟩
      · exact absurd h (by simp)

lemma find_employee_by_id_some {s : DBState} {eid : Nat} {e : Employee}
    (h : find_employee_by_id s eid = some e) : e ∈ s.employees ∧ e.id = eid := by
  unfold find_employee_by_id at h
  exact ⟨List.mem_of_find?_eq_some h, by simpa using List.find?_some h⟩

lemma get_employee_by_employee_id_none {s : DBState} {c : String}
    (h : get_employee_by_employee_id s c = none) :
    ∀ e ∈ s.employees, e.employee_id ≠ c := by
  unfold get_employee_by_employee_id at h
  intro e he
  simpa using List.find?_eq_none.mp h e he

lemma get_employee_by_email_none {s : DBState} {m : String}
    (h : get_employee_by_email s m = none) :
    ∀ e ∈ s.employees, e.email ≠ pyLower m := by
  unfold get_employee_by_email at h
  intro e he
  simpa using List.find?_eq_none.mp h e he

lemma check_duplicate_attendance_none {s : DBState} {eid d : Nat}
    (h : check_duplicate_attendance s eid d = none) :
    ∀ a ∈ s.attendance, ¬(a.employee_id = eid ∧ a.date = d) := by
  unfold check_duplicate_attendance at h
  intro a ha hc
  have := List.find?_eq_none.mp h a ha
  simp [hc.1, hc.2] at this

lemma inv_create {s : DBState} {d : EmployeeCreate} {t : Nat} {s' : DBState}
    (inv : StoreInv s) (ht : s.now ≤ t) (hd : pyLower d.email = d.email)
    (h : create_employee s s d t = .ok s') : StoreInv s' := by
  obtain ⟨hcode, hemail, hok, rfl⟩ := create_employee_ok h
  refine ⟨?_, ?_, ?_, ?_, ?_, ?_, ?_, ?_, ?_⟩
  · rw [List.pairwise_append]
    refine ⟨inv.empAsc, by simp, ?_⟩
    intro a ha b hb
    simp only [List.mem_singleton] at hb
    subst hb
    exact inv.empLt a ha
  · intro e he
    rcases List.mem_append.mp he with h1 | h1
    · exact Nat.lt_trans (inv.empLt e h1) (Nat.lt_succ_self _)
    · simp only [List.mem_singleton] at h1
      subst h1
      exact Nat.lt_succ_self _
  · exact hok.imp fun hx => hx.2.1
  · exact hok.imp fun hx => hx.2.2
  · intro e he
    rcases List.mem_append.mp he with h1 | h1
    · exact inv.emailLower e h1
    · simp only [List.mem_singleton] at h1
      subst h1
      show pyLower (pyLower d.email) = pyLower d.email
      rw [hd]
      exact hd
  · exact inv.attPair
  · exact inv.attLt
  · intro a ha
    obtain ⟨e, he, hid⟩ := inv.refInt a ha
    exact ⟨e, List.mem_append.mpr (.inl he), hid⟩
  · intro a ha
    exact Nat.le_trans (inv.dateLeNow a ha) ht

lemma inv_delete {s : DBState} {eid : Nat} {s' : DBState}
    (inv : StoreInv s) (h : delete_employee s eid = .ok s') : StoreInv s' := by
  obtain ⟨-, rfl⟩ := delete_employee_ok h
  refine ⟨?_, ?_, ?_, ?_, ?_, ?_, ?_, ?_, ?_⟩
  · exact inv.empAsc.sublist (List.filter_sublist _)
  · intro e he
    exact inv.empLt e (List.mem_of_mem_filter he)
  · exact inv.codeUnique.sublist (List.filter_sublist _)
  · exact inv.emailUnique.sublist (List.filter_sublist _)
  · intro e he
    exact inv.emailLower e (List.mem_of_mem_filter he)
  · exact inv.attPair.sublist (List.filter_sublist _)
  · intro a ha
    exact inv.attLt a (List.mem_of_mem_filter ha)
  · intro a ha
    have ha' := List.mem_filter.mp ha
    obtain ⟨e, he, hid⟩ := inv.refInt a ha'.1
    have hne : a.employee_id ≠ eid := by simpa using ha'.2
    refine ⟨e, List.mem_filter.mpr ⟨he, ?_⟩, hid⟩
    simpa [hid] using hne
  · intro a ha
    exact inv.dateLeNow a (List.mem_of_mem_filter ha)

lemma inv_mark {s : DBState} {d : AttendanceCreate} {t : Nat} {s' : DBState}
    (inv : StoreInv s) (ht : s.now ≤ t)
    (h : mark_attendance s s d t = .ok s') : StoreInv s' := by
  obtain ⟨hdate, ⟨e, hfind⟩, hdup, hok, rfl⟩ := mark_attendance_ok h
  obtain ⟨hmem, hid⟩ := find_employee_by_id_some hfind
  refine ⟨inv.empAsc, inv.empLt, inv.codeUnique, inv.emailUnique, inv.emailLower, ?_, ?_, ?_, ?_⟩
  · exact hok.1.imp fun hx => hx.2
  · intro a ha
    rcases List.mem_append.mp ha with h1 | h1
    · exact Nat.lt_trans (inv.attLt a h1) (Nat.lt_succ_self _)
    · simp only [List.mem_singleton] at h1
      subst h1
      exact Nat.lt_succ_self _
  · intro a ha
    rcases List.mem_append.mp ha with h1 | h1
    · exact inv.refInt a h1
    · simp only [List.mem_singleton] at h1
      subst h1
      exact ⟨e, hmem, hid⟩
  · intro a ha
    rcases List.mem_append.mp ha with h1 | h1
    · exact Nat.le_trans (inv.dateLeNow a h1) ht
    · simp only [List.mem_singleton] at h1
      subst h1
      exact hdate

lemma appliedUpdate_id (emp : Employee) (d : EmployeeUpdate) (t : Nat) :
    (appliedUpdate emp d t).id = emp.id := rfl

lemma inv_update {s : DBState} {eid : Nat} {d : EmployeeUpdate} {t : Nat} {s' : DBState}
    (inv : StoreInv s) (ht : s.now ≤ t) (hd : ∀ v, d.email = some v → pyLower v = v)
    (h : update_employee s s eid d t = .ok s') : StoreInv s' := by
  obtain ⟨emp, hfind, hok, rfl⟩ := update_employee_ok h
  obtain ⟨hmem, hid⟩ := find_employee_by_id_some hfind
  have hidf : ∀ e : Employee,
      (if e.id == eid then appliedUpdate emp d t else e).id = e.id := by
    intro e
    by_cases hcase : (e.id == eid) = true
    · have he : e.id = eid := by simpa using hcase
      rw [if_pos hcase, appliedUpdate_id, hid, he]
    · rw [if_neg hcase]
  refine ⟨?_, ?_, ?_, ?_, ?_, inv.attPair, inv.attLt, ?_, ?_⟩
  · rw [List.pairwise_map]
    exact inv.empAsc.imp fun {a b} hab => by simp only [hidf]; exact hab
  · intro x hx
    obtain ⟨e, he, rfl⟩ := List.mem_map.mp hx
    have := inv.empLt e he
    simpa only [hidf] using this
  · exact hok.imp fun hx => hx.2.1
  · exact hok.imp fun hx => hx.2.2
  · intro x hx
    obtain ⟨e, he, rfl⟩ := List.mem_map.mp hx
    by_cases hcase : (e.id == eid) = true
    · rw [if_pos hcase]
      cases hde : d.email with
      | none =>
        show pyLower (d.email.getD emp.email) = d.email.getD emp.email
        rw [hde]
        exact inv.emailLower emp hmem
      | some v =>
        show pyLower (d.email.getD emp.email) = d.email.getD emp.email
        rw [hde]
        exact hd v hde
    · rw [if_neg hcase]
      exact inv.emailLower e he
  · intro a ha
    obtain ⟨e, he, hide⟩ := inv.refInt a ha
    refine ⟨if e.id == eid then appliedUpdate emp d t else e, ?_, ?_⟩
    · exact List.mem_map_of_mem _ he
    · rw [hidf]
      exact hide
  · intro a ha
    exact Nat.le_trans (inv.dateLeNow a ha) ht

lemma step_inv {s s' : DBState} (inv : StoreInv s) (st : Step s s') : StoreInv s' := by
  cases st with
  | create d t ht hd h => exact inv_create inv ht hd h
  | update eid d t ht hd h => exact inv_update inv ht hd h
  | delete eid h => exact inv_delete inv h
  | mark d t ht h => exact inv_mark inv ht h

lemma initial_inv : StoreInv initialState := by
  refine ⟨?_, ?_, ?_, ?_, ?_, ?_, ?_, ?_, ?_⟩ <;> simp [initialState]

lemma reachable_inv {s : DBState} (h : Reachable s) : StoreInv s := by
  induction h with
  | init => exact initial_inv
  | step _ st ih => exact step_inv ih st

lemma countP_le_one_of_pairwise {α : Type} {p : α → Bool} {l : List α}
    (h : l.Pairwise fun a b => ¬(p a = true ∧ p b = true)) : l.countP p ≤ 1 := by
  induction l with
  | nil => simp
  | cons x xs ih =>
    rw [List.pairwise_cons] at h
    by_cases hx : p x = true
    · have hzero : xs.countP p = 0 := by
        rw [List.countP_eq_zero]
        exact fun a ha hpa => h.1 a ha ⟨hx, hpa⟩
      rw [List.countP_cons, if_pos hx, hzero]
    · rw [List.countP_cons, if_neg hx]
      simpa using ih h.2

lemma reachable_exState1 : Reachable exState1 :=
  Reachable.step Reachable.init (Step.create exCreate1 1 (by decide) (by decide) (by decide))

lemma reachable_exState2 : Reachable exState2 :=
  Reachable.step reachable_exState1 (Step.mark exMark1 2 (by decide) (by decide))

lemma reachable_exState10 : Reachable exState10 :=
  Reachable.step reachable_exState1 (Step.create exCreate2 1 (by decide) (by decide) (by decide))

lemma insertionSort_empIdGe_eq_reverse {l : List Employee}
    (h : l.Pairwise fun a b => a.id < b.id) :
    List.insertionSort empIdGe l = l.reverse := by
  have hperm : List.Perm (List.insertionSort empIdGe l) l := List.perm_insertionSort _ _
  have hs : List.Sorted empIdGe (List.insertionSort empIdGe l) := List.sorted_insertionSort _ _
  have hne : (List.insertionSort empIdGe l).Pairwise fun a b => a.id ≠ b.id :=
    (hperm.pairwise_iff fun {x y} (hab : x.id ≠ y.id) => hab.symm).mpr
      (h.imp fun hab => Nat.ne_of_lt hab)
  have hstrict : (List.insertionSort empIdGe l).Pairwise fun a b => b.id < a.id :=
    (hs.and hne).imp fun hx => lt_of_le_of_ne hx.1 fun q => hx.2 q.symm
  have hrev : l.reverse.Pairwise fun a b => b.id < a.id := by
    rw [List.pairwise_reverse]
    exact h
  have hperm2 : List.Perm (List.insertionSort empIdGe l) l.reverse :=
    hperm.trans (List.reverse_perm l).symm
  haveI : IsAntisymm Employee fun a b => b.id < a.id :=
    ⟨fun _ _ h1 h2 => absurd h1 (Nat.lt_asymm h2)⟩
  exact List.eq_of_perm_of_sorted hperm2 hstrict hrev

/-- C1: in every reachable ledger state there is at most one attendance
record per employee and calendar date; `mark` on a pair that already has a
record fails with `DuplicateRecord` (the date of such a record can never
lie in the future of the monotone clock, and referential integrity
guarantees the employee check passes, so control reaches the duplicate
check); and every operation preserves the uniqueness.  An `.error` result
leaves the store unchanged by the transaction-rollback semantics of the
embedding. -/
theorem C1_attendance_pair_unique :
    (∀ s, Reachable s → AttendanceUnique s) ∧
    (∀ (s : DBState) (d : AttendanceCreate) (t : Nat), Reachable s → s.now ≤ t →
      (∃ a ∈ s.attendance, a.employee_id = d.employee_id ∧ a.date = d.attendance_date) →
      mark_attendance s s d t = .error .duplicateAttendance) ∧
    (∀ s s' : DBState, AttendanceUnique s → Step s s' → AttendanceUnique s') := by
  refine ⟨?_, ?_, ?_⟩
  · intro s hs eid dd
    apply countP_le_one_of_pairwise
    refine (reachable_inv hs).attPair.imp ?_
    intro a b hab hc
    obtain ⟨hpa, hpb⟩ := hc
    simp only [Bool.and_eq_true, beq_iff_eq] at hpa hpb
    exact hab ⟨hpa.1.trans hpb.1.symm, hpa.2.trans hpb.2.symm⟩
  · intro s d t hs ht ⟨a, ha, haemp, hadate⟩
    have inv := reachable_inv hs
    have hdate : ¬(t < d.attendance_date) := by
      have := inv.dateLeNow a ha
      omega
    have hemp : find_employee_by_id s d.employee_id ≠ none := by
      intro hnone
      obtain ⟨e, he, hide⟩ := inv.refInt a ha
      have := List.find?_eq_none.mp hnone e he
      simp [hide, haemp] at this
    have hdup : check_duplicate_attendance s d.employee_id d.attendance_date ≠ none := by
      intro hnone
      exact check_duplicate_attendance_none hnone a ha ⟨haemp, hadate⟩
    unfold mark_attendance
    rw [if_neg hdate, if_neg (by simpa [Option.isNone_iff_eq_none] using hemp),
        if_pos (by simpa [Option.isSome_iff_ne_none] using hdup)]
  · intro s s' hA st
    cases st with
    | create d t ht hd h =>
      obtain ⟨-, -, -, rfl⟩ := create_employee_ok h
      exact hA
    | update eid d t ht hd h =>
      obtain ⟨emp, -, -, rfl⟩ := update_employee_ok h
      exact hA
    | delete eid h =>
      obtain ⟨-, rfl⟩ := delete_employee_ok h
      intro eid' dd
      exact Nat.le_trans (List.Sublist.countP_le _ (List.filter_sublist _)) (hA eid' dd)
    | mark d t ht h =>
      obtain ⟨-, -, -, hok, rfl⟩ := mark_attendance_ok h
      intro eid' dd
      apply countP_le_one_of_pairwise
      refine hok.1.imp ?_
      intro a b hab hc
      obtain ⟨hpa, hpb⟩ := hc
      simp only [Bool.and_eq_true, beq_iff_eq] at hpa hpb
      exact hab.2 ⟨hpa.1.trans hpb.1.symm, hpa.2.trans hpb.2.symm⟩

/-- Witness for C1: after creating employee 1 and marking day 2 as
Present, a second `mark` for the same employee and date (with a different
status) fails with `DuplicateRecord`. -/
theorem C1_witness :
    mark_attendance exState2 exState2 ⟨1, 2, .Absent⟩ 3 = .error .duplicateAttendance :=
  C1_attendance_pair_unique.2.1 exState2 ⟨1, 2, .Absent⟩ 3 reachable_exState2 (by decide)
    ⟨⟨1, 1, 2, "Present", 2⟩, by decide, by decide, by decide⟩

/-- C6: `mark` with a date strictly after the current date fails with
`InvalidDate` — the very first check of `mark_attendance`, performed
before the employee-existence and duplicate checks, so it fires for any
store, in particular when the referenced employee does not exist; the
error leaves the ledger unchanged. -/
theorem C6_future_date_invalid :
    ∀ (s : DBState) (d : AttendanceCreate) (t : Nat), t < d.attendance_date →
      mark_attendance s s d t = .error .invalidDate ∧
      (find_employee_by_id s d.employee_id = none →
        mark_attendance s s d t = .error .invalidDate) := by
  intro s d t hlt
  have h1 : mark_attendance s s d t = .error .invalidDate := by
    unfold mark_attendance
    rw [if_pos hlt]
  exact ⟨h1, fun _ => h1⟩

/-- Witness for C6: marking day 5 when today is day 3, on the empty store
(whose employee 1 does not even exist), fails with `InvalidDate`. -/
theorem C6_witness :
    mark_attendance initialState initialState ⟨1, 5, .Present⟩ 3 = .error .invalidDate ∧
    (find_employee_by_id initialState 1 = none →
      mark_attendance initialState initialState ⟨1, 5, .Present⟩ 3 = .error .invalidDate) :=
  C6_future_date_invalid initialState ⟨1, 5, .Present⟩ 3 (by decide)

/-- C2: in every reachable registry state no two employees share an
`employee_id` code and no two share an e-mail compared case-insensitively
(stored e-mails are lower-cased, so at most one row matches each
lower-cased e-mail); `create` fails with `DuplicateIdentity` whenever the
supplied code or the normalized e-mail already belongs to some employee;
and when neither pre-check finds a match on a reachable state the insert
succeeds, appending the new row. -/
theorem C2_identity_unique :
    (∀ s, Reachable s →
      (∀ c, (s.employees.countP fun e => e.employee_id == c) ≤ 1) ∧
      (∀ m, (s.employees.countP fun e => pyLower e.email == m) ≤ 1)) ∧
    (∀ (s : DBState) (d : EmployeeCreate) (t : Nat),
      (∃ e ∈ s.employees, e.employee_id = d.employee_id ∨ e.email = pyLower d.email) →
      create_employee s s d t = .error .duplicateEmployee) ∧
    (∀ (s : DBState) (d : EmployeeCreate) (t : Nat), Reachable s →
      get_employee_by_employee_id s d.employee_id = none →
      get_employee_by_email s d.email = none →
      create_employee s s d t =
        .ok { s with
              employees := s.employees ++ [newEmployee s d t],
              next_emp_id := s.next_emp_id + 1, now := t }) := by
  refine ⟨?_, ?_, ?_⟩
  · intro s hs
    have inv := reachable_inv hs
    constructor
    · intro c
      apply countP_le_one_of_pairwise
      refine inv.codeUnique.imp ?_
      intro a b hab hc
      obtain ⟨hpa, hpb⟩ := hc
      simp only [beq_iff_eq] at hpa hpb
      exact hab (hpa.trans hpb.symm)
    · intro m
      apply countP_le_one_of_pairwise
      refine inv.emailUnique.imp_of_mem ?_
      intro a b hma hmb hab hc
      obtain ⟨hpa, hpb⟩ := hc
      simp only [beq_iff_eq] at hpa hpb
      rw [inv.emailLower a hma] at hpa
      rw [inv.emailLower b hmb] at hpb
      exact hab (hpa.trans hpb.symm)
  · intro s d t ⟨e, he, hor⟩
    by_cases h1 : (get_employee_by_employee_id s d.employee_id).isSome = true
    · unfold create_employee
      rw [if_pos h1]
    · have h1n := Option.not_isSome_iff_eq_none.mp h1
      rcases hor with hcode | hemail
      · exact absurd hcode (get_employee_by_employee_id_none h1n e he)
      · have h2 : (get_employee_by_email s d.email).isSome = true := by
          unfold get_employee_by_email
          cases hf : s.employees.find? fun x => x.email == pyLower d.email with
          | some _ => rfl
          | none => exact absurd hemail (by simpa using List.find?_eq_none.mp hf e he)
        unfold create_employee
        rw [if_neg h1, if_pos h2]
  · intro s d t hs hcode hemail
    have inv := reachable_inv hs
    have hcode' := get_employee_by_employee_id_none hcode
    have hemail' := get_employee_by_email_none hemail
    have hok : employeesTableOk (s.employees ++ [newEmployee s d t]) := by
      rw [employeesTableOk, List.pairwise_append]
      refine ⟨?_, by simp, ?_⟩
      · exact (((inv.empAsc.imp fun hab => Nat.ne_of_lt hab).and inv.codeUnique).and
          inv.emailUnique).imp fun hx => ⟨hx.1.1, hx.1.2, hx.2⟩
      · intro a ha b hb
        simp only [List.mem_singleton] at hb
        subst hb
        exact ⟨Nat.ne_of_lt (inv.empLt a ha), hcode' a ha, hemail' a ha⟩
    unfold create_employee
    rw [if_neg (by simp [hcode]), if_neg (by simp [hemail])]
    simp only []
    rw [if_pos hok]

/-- Witness for C2: creating a second employee with the already used code
"EMP001" fails with `DuplicateIdentity`. -/
theorem C2_witness :
    create_employee exState1 exState1 ⟨"EMP001", "Someone Else", "other@company.com", "HR"⟩ 5 =
      .error .duplicateEmployee :=
  C2_identity_unique.2.1 exState1 ⟨"EMP001", "Someone Else", "other@company.com", "HR"⟩ 5
    ⟨⟨1, "EMP001", "John Doe", "john.doe@company.com", "Engineering", 1, 1⟩,
     by decide, Or.inl (by decide)⟩

/-- C3: when the storage layer rejects the commit of `create`, `update` or
`mark` with a uniqueness violation that the (stale-snapshot) pre-check
missed, the operation catches the `IntegrityError`, rolls back — an
`.error` result leaves the current store unchanged — and raises the very
domain error the pre-check would have produced: `DuplicateIdentity` for
`create`/`update`, `DuplicateRecord` for `mark`.  No raw storage error can
escape: the services' result type contains only the domain kinds. -/
theorem C3_commit_fallback :
    (∀ (snap cur : DBState) (d : EmployeeCreate) (t : Nat),
      get_employee_by_employee_id snap d.employee_id = none →
      get_employee_by_email snap d.email = none →
      (∃ e ∈ cur.employees, e.employee_id = d.employee_id ∨ e.email = pyLower d.email) →
      create_employee snap cur d t = .error .duplicateEmployee) ∧
    (∀ (snap cur : DBState) (eid : Nat) (d : EmployeeUpdate) (t : Nat)
        (emp : Employee) (v : String),
      find_employee_by_id snap eid = some emp →
      d.email = some v →
      get_employee_by_email snap v = none →
      (∃ e ∈ cur.employees, e.id ≠ eid ∧ e.email = v) →
      (∃ e ∈ cur.employees, e.id = eid) →
      update_employee snap cur eid d t = .error .duplicateEmployee) ∧
    (∀ (snap cur : DBState) (d : AttendanceCreate) (t : Nat),
      ¬(t < d.attendance_date) →
      (∃ e, find_employee_by_id snap d.employee_id = some e) →
      check_duplicate_attendance snap d.employee_id d.attendance_date = none →
      (∃ a ∈ cur.attendance, a.employee_id = d.employee_id ∧ a.date = d.attendance_date) →
      mark_attendance snap cur d t = .error .duplicateAttendance) := by
  refine ⟨?_, ?_, ?_⟩
  · intro snap cur d t hcode hemail ⟨e, he, hor⟩
    have hnotok : ¬ employeesTableOk (cur.employees ++ [newEmployee cur d t]) := by
      intro hok
      rw [employeesTableOk, List.pairwise_append] at hok
      have hcross := hok.2.2 e he (newEmployee cur d t) (by simp)
      rcases hor with h1 | h1
      · exact hcross.2.1 h1
      · exact hcross.2.2 h1
    unfold create_employee
    rw [if_neg (by simp [hcode]), if_neg (by simp [hemail])]
    simp only []
    rw [if_neg hnotok]
  · intro snap cur eid d t emp v hfind hde hmail ⟨e, he, hene, hev⟩ ⟨e', he', he'id⟩
    obtain ⟨hmem, hempid⟩ := find_employee_by_id_some hfind
    have hnotok : ¬ employeesTableOk
        (cur.employees.map fun x => if x.id == eid then appliedUpdate emp d t else x) := by
      intro hok
      have hsymm : Symmetric fun a b : Employee =>
          a.id ≠ b.id ∧ a.employee_id ≠ b.employee_id ∧ a.email ≠ b.email :=
        fun _ _ hx => ⟨hx.1.symm, hx.2.1.symm, hx.2.2.symm⟩
      have hx : (if e.id == eid then appliedUpdate emp d t else e) ∈
          cur.employees.map fun x => if x.id == eid then appliedUpdate emp d t else x :=
        List.mem_map_of_mem _ he
      have hy : (if e'.id == eid then appliedUpdate emp d t else e') ∈
          cur.employees.map fun x => if x.id == eid then appliedUpdate emp d t else x :=
        List.mem_map_of_mem _ he'
      rw [if_neg (by simpa using hene)] at hx
      rw [if_pos (by simpa using he'id)] at hy
      have hne : e ≠ appliedUpdate emp d t := by
        intro hcontra
        have : e.id = emp.id := by rw [hcontra]; rfl
        rw [hempid] at this
        exact hene this
      have hrel := (List.Pairwise.forall hsymm hok) hx hy hne
      apply hrel.2.2
      show e.email = (appliedUpdate emp d t).email
      show e.email = d.email.getD emp.email
      rw [hde]
      exact hev
    unfold update_employee
    rw [hfind]
    simp only [hde, hmail]
    rw [if_neg (by simp)]
    rw [if_neg hnotok]
  · intro snap cur d t hdate ⟨e, hfind⟩ hdup ⟨a, ha, haemp, hadate⟩
    have hnotok : ¬ attendanceTableOk (cur.attendance ++ [newAttendance cur d t]) := by
      intro hok
      rw [attendanceTableOk, List.pairwise_append] at hok
      have hcross := hok.1.2.2 a ha (newAttendance cur d t) (by simp)
      exact hcross.2 ⟨haemp, hadate⟩
    unfold mark_attendance
    rw [if_neg hdate, if_neg (by simp [hfind]), if_neg (by simp [hdup])]
    simp only []
    rw [if_neg hnotok]

/-- Witness for C3: a `create` whose pre-checks ran against the empty
snapshot while another writer already committed "EMP001" is rejected at
commit time and surfaces as `DuplicateIdentity`. -/
theorem C3_witness :
    create_employee initialState exState1 exCreate1 5 = .error .duplicateEmployee :=
  C3_commit_fallback.1 initialState exState1 exCreate1 5 (by decide) (by decide)
    ⟨⟨1, "EMP001", "John Doe", "john.doe@company.com", "Engineering", 1, 1⟩,
     by decide, Or.inl (by decide)⟩

/-- C4: `delete` on an absent id fails with `NotFound` (the store is
unchanged by the rollback semantics of an `.error` result); on success —
in one atomic step — the employee row and every attendance row referencing
it are gone, and a subsequent `byEmployee` call for that id fails with
`EmployeeNotFound`. -/
theorem C4_delete_cascades :
    (∀ (s : DBState) (eid : Nat), find_employee_by_id s eid = none →
      delete_employee s eid = .error .employeeNotFound) ∧
    (∀ (s : DBState) (eid : Nat) (s' : DBState), delete_employee s eid = .ok s' →
      (∀ a ∈ s'.attendance, a.employee_id ≠ eid) ∧
      (∀ e ∈ s'.employees, e.id ≠ eid) ∧
      get_attendance_by_employee s' eid = .error .employeeNotFound) := by
  refine ⟨?_, ?_⟩
  · intro s eid hnone
    unfold delete_employee
    rw [hnone]
  · intro s eid s' h
    obtain ⟨-, rfl⟩ := delete_employee_ok h
    have hatt : ∀ a ∈ s.attendance.filter fun a => a.employee_id != eid,
        a.employee_id ≠ eid := by
      intro a ha
      simpa using (List.mem_filter.mp ha).2
    have hemp : ∀ e ∈ s.employees.filter fun e => e.id != eid, e.id ≠ eid := by
      intro e he
      simpa using (List.mem_filter.mp he).2
    refine ⟨hatt, hemp, ?_⟩
    unfold get_attendance_by_employee
    rw [if_pos]
    show (find_employee_by_id _ eid).isNone = true
    unfold find_employee_by_id
    rw [Option.isNone_iff_eq_none, List.find?_eq_none]
    intro e he
    simpa using hemp e he

/-- Witness for C4: deleting employee 1 from the store that holds one
employee and one attendance record empties both tables and makes
`byEmployee 1` fail with `EmployeeNotFound`. -/
theorem C4_witness :
    (∀ a ∈ (⟨[], [], 2, 2, 2⟩ : DBState).attendance, a.employee_id ≠ 1) ∧
    (∀ e ∈ (⟨[], [], 2, 2, 2⟩ : DBState).employees, e.id ≠ 1) ∧
    get_attendance_by_employee (⟨[], [], 2, 2, 2⟩ : DBState) 1 = .error .employeeNotFound :=
  C4_delete_cascades.2 exState2 1 ⟨[], [], 2, 2, 2⟩ (by decide)

/-- C5: `summary` fails with `EmployeeNotFound` when the employee does not
exist, and otherwise returns `totalDays` = number of the employee's
records, `presentDays` = number of those with status Present,
`absentDays = totalDays - presentDays` with
`presentDays + absentDays = totalDays`, and `attendancePercentage =
round(presentDays / totalDays * 100, 2)` for `totalDays > 0` and `0.0`
otherwise.  Being a plain function of the store, the result is
deterministic in the ledger state. -/
theorem C5_summary_stats :
    ∀ (s : DBState) (eid : Nat),
      (find_employee_by_id s eid = none →
        calculate_present_days s eid = .error .employeeNotFound) ∧
      (∀ emp, find_employee_by_id s eid = some emp →
        ∃ r, calculate_present_days s eid = .ok r ∧
          r.employee_id = eid ∧
          r.employee_name = emp.full_name ∧
          r.total_days = (s.attendance.filter fun a => a.employee_id == eid).length ∧
          r.present_days = ((s.attendance.filter fun a => a.employee_id == eid).countP
            fun x => x.status == "Present") ∧
          r.absent_days = r.total_days - r.present_days ∧
          r.present_days + r.absent_days = r.total_days ∧
          r.attendance_percentage = (if 0 < r.total_days then
            pyRound2 ((r.present_days : ℚ) / (r.total_days : ℚ) * 100) else 0)) := by
  intro s eid
  constructor
  · intro hnone
    unfold calculate_present_days
    rw [hnone]
  · intro emp hfind
    unfold calculate_present_days
    rw [hfind]
    refine ⟨_, rfl, rfl, rfl, rfl, rfl, rfl, ?_, rfl⟩
    have hle : ((s.attendance.filter fun a => a.employee_id == eid).countP
        fun x => x.status == "Present") ≤
        (s.attendance.filter fun a => a.employee_id == eid).length :=
      List.countP_le_length _
    simpa using Nat.add_sub_cancel' hle

/-- Witness for C5: the summary of employee 1 in the one-record store is
returned successfully with consistent counts. -/
theorem C5_witness :
    ∃ r, calculate_present_days exState2 1 = .ok r ∧
      r.present_days + r.absent_days = r.total_days := by
  obtain ⟨r, h1, -, -, -, -, -, h7, -⟩ :=
    (C5_summary_stats exState2 1).2
      ⟨1, "EMP001", "John Doe", "john.doe@company.com", "Engineering", 1, 1⟩ (by decide)
  exact ⟨r, h1, h7⟩

/-- Counterexample to C7: the string `"  "` (two spaces) is accepted
unchanged by the update-schema validation of `full_name` (only the raw
`Field(min_length=2)` bound applies) although the create-schema validation
rejects it as blank after stripping — so update does *not* revalidate
supplied fields under the same rules as create. -/
theorem C7_counterexample :
    employeeUpdate_validate_full_name "  " = .ok "  " ∧
    employeeBase_validate_full_name "  " = .error "Full name cannot be empty" ∧
    employeeUpdate_validate_department " " = .ok " " ∧
    employeeBase_validate_department " " = .error "Department cannot be empty" := by
  decide

/-- C7 (amended): in `update`, a supplied e-mail is trimmed, lower-cased
and pattern-checked exactly as in create except that a value blank after
trimming is treated as not supplied (`None`) instead of rejected; a
supplied `fullName` or `department` is checked only against the raw
length bounds (2–100 resp. 1–100) and otherwise accepted *unchanged* —
no trimming and no emptiness re-check, so whitespace-only values that
create rejects pass update validation. -/
theorem C7_update_validation :
    (∀ v, employeeUpdate_validate_email v = (employeeBase_validate_email v).map some ∨
      (pyLower (pyStrip v) = "" ∧ employeeUpdate_validate_email v = .ok none)) ∧
    (∀ v, employeeUpdate_validate_full_name v = .ok v ∨
      employeeUpdate_validate_full_name v = .error "string length out of range") ∧
    (∀ v, ¬(v.length < 2 ∨ 100 < v.length) → employeeUpdate_validate_full_name v = .ok v) ∧
    (∀ v, employeeUpdate_validate_department v = .ok v ∨
      employeeUpdate_validate_department v = .error "string length out of range") ∧
    (∀ v, ¬(v.length < 1 ∨ 100 < v.length) → employeeUpdate_validate_department v = .ok v) := by
  refine ⟨?_, ?_, ?_, ?_, ?_⟩
  · intro v
    unfold employeeUpdate_validate_email employeeBase_validate_email
    by_cases h1 : 255 < v.length
    · rw [if_pos h1, if_pos h1]
      exact .inl rfl
    · rw [if_neg h1, if_neg h1]
      by_cases h2 : pyLower (pyStrip v) = ""
      · simp only [if_pos h2]
        exact .inr ⟨h2, trivial⟩
      · simp only [if_neg h2]
        by_cases h3 : emailMatches (pyLower (pyStrip v)) = true
        · simp only [if_pos h3]
          exact .inl rfl
        · simp only [if_neg h3]
          exact .inl rfl
  · intro v
    unfold employeeUpdate_validate_full_name
    by_cases h : v.length < 2 ∨ 100 < v.length
    · rw [if_pos h]
      exact .inr rfl
    · rw [if_neg h]
      exact .inl rfl
  · intro v h
    unfold employeeUpdate_validate_full_name
    rw [if_neg h]
  · intro v
    unfold employeeUpdate_validate_department
    by_cases h : v.length < 1 ∨ 100 < v.length
    · rw [if_pos h]
      exact .inr rfl
    · rw [if_neg h]
      exact .inl rfl
  · intro v h
    unfold employeeUpdate_validate_department
    rw [if_neg h]

/-- Witness for C7 (amended): `"  A  "` lies inside the raw length bounds,
so update validation accepts it verbatim, untrimmed. -/
theorem C7_witness :
    employeeUpdate_validate_full_name "  A  " = .ok "  A  " :=
  C7_update_validation.2.2.1 "  A  " (by decide)

/-- Counterexample to C8: an empty partial update of employee 1 at instant
9 succeeds, yet the stored row still carries `updated_at = 1` — SQLAlchemy
emits no UPDATE when no column value changes, so `onupdate` never fires
and `updatedAt` is *not* refreshed. -/
theorem C8_counterexample :
    update_employee exState1 exState1 1 ⟨none, none, none⟩ 9 = .ok { exState1 with now := 9 } ∧
    (∀ e ∈ ({ exState1 with now := 9 } : DBState).employees, e.updated_at = 1) ∧
    (1 : Nat) ≠ 9 := by
  decide

/-- C8 (amended): a successful `update` stores the row produced by
`appliedUpdate`, whose `updatedAt` is refreshed to the update instant
exactly when some supplied field differs from the stored value, and is
left untouched otherwise — in particular an empty partial update does not
refresh it. -/
theorem C8_updated_at_on_change :
    ∀ (s : DBState) (eid : Nat) (d : EmployeeUpdate) (t : Nat) (emp : Employee) (s' : DBState),
      find_employee_by_id s eid = some emp →
      update_employee s s eid d t = .ok s' →
      appliedUpdate emp d t ∈ s'.employees ∧
      (appliedUpdate emp d t).updated_at =
        (if (d.full_name.getD emp.full_name != emp.full_name ||
             d.email.getD emp.email != emp.email ||
             d.department.getD emp.department != emp.department) = true
         then t else emp.updated_at) := by
  intro s eid d t emp s' hfind h
  obtain ⟨emp2, hfind2, hok, rfl⟩ := update_employee_ok h
  rw [hfind] at hfind2
  injection hfind2 with he2
  subst he2
  constructor
  · have hmem : emp ∈ s.employees := (find_employee_by_id_some hfind).1
    have hid : emp.id = eid := (find_employee_by_id_some hfind).2
    have hx := List.mem_map_of_mem
      (fun e => if e.id == eid then appliedUpdate emp d t else e) hmem
    simpa [hid] using hx
  · rfl

/-- Witness for C8 (amended): updating the name to "Jane Doe" at instant 9
does refresh `updated_at` to 9, and the refreshed row is stored. -/
theorem C8_witness :
    (appliedUpdate ⟨1, "EMP001", "John Doe", "john.doe@company.com", "Engineering", 1, 1⟩
      ⟨some "Jane Doe", none, none⟩ 9).updated_at = 9 ∧
    appliedUpdate ⟨1, "EMP001", "John Doe", "john.doe@company.com", "Engineering", 1, 1⟩
      ⟨some "Jane Doe", none, none⟩ 9 ∈
      (⟨[⟨1, "EMP001", "Jane Doe", "john.doe@company.com", "Engineering", 1, 9⟩],
        [], 2, 1, 9⟩ : DBState).employees := by
  have h := C8_updated_at_on_change exState1 1 ⟨some "Jane Doe", none, none⟩ 9
      ⟨1, "EMP001", "John Doe", "john.doe@company.com", "Engineering", 1, 1⟩
      ⟨[⟨1, "EMP001", "Jane Doe", "john.doe@company.com", "Engineering", 1, 9⟩], [], 2, 1, 9⟩
      (by decide) (by decide)
  exact ⟨h.2.trans (by decide), h.1⟩

/-- C9: on every reachable registry state the unfiltered employee list
route returns the page of employees ordered most-recently-created first —
rows are stored in creation order with strictly increasing ids, so
`ORDER BY id DESC` is exactly the reversed creation order — together with
the total number of all employees. -/
theorem C9_list_pagination :
    ∀ (s : DBState) (skip limit : Nat), Reachable s → 1 ≤ limit → limit ≤ 500 →
      get_all_employees_route s skip limit none =
        ((s.employees.reverse.drop skip).take limit, s.employees.length) := by
  intro s skip limit hs h1 h2
  unfold get_all_employees_route employeesPage
  rw [insertionSort_empIdGe_eq_reverse (reachable_inv hs).empAsc]

/-- Witness for C9: the two-employee store is paged newest-first with
total 2. -/
theorem C9_witness :
    get_all_employees_route exState10 0 100 none =
      ([⟨2, "emp001", "Jane Roe", "jane.roe@company.com", "Finance", 1, 1⟩,
        ⟨1, "EMP001", "John Doe", "john.doe@company.com", "Engineering", 1, 1⟩], 2) :=
  (C9_list_pagination exState10 0 100 reachable_exState10 (by decide) (by decide)).trans
    (by decide)

/-- C10: employee codes are compared case-sensitively while e-mails are
case-insensitive: a reachable state (built by two valid creates) holds
both "EMP001" and "emp001", whereas in every reachable state no two
employees agree on the lower-cased e-mail. -/
theorem C10_code_case_email_case :
    (employeeBase_validate_employee_id "EMP001" = .ok "EMP001" ∧
     employeeBase_validate_employee_id "emp001" = .ok "emp001" ∧
     Reachable exState10 ∧
     exState10.employees.map (fun e => e.employee_id) = ["EMP001", "emp001"]) ∧
    (∀ s, Reachable s →
      s.employees.Pairwise fun a b => pyLower a.email ≠ pyLower b.email) := by
  refine ⟨⟨by decide, by decide, reachable_exState10, by decide⟩, ?_⟩
  intro s hs
  have inv := reachable_inv hs
  refine inv.emailUnique.imp_of_mem ?_
  intro a b hma hmb hab
  rw [inv.emailLower a hma, inv.emailLower b hmb]
  exact hab

/-- Witness for C10: the case-insensitive e-mail uniqueness instantiated
at the concrete two-employee reachable store. -/
theorem C10_witness :
    exState10.employees.Pairwise fun a b => pyLower a.email ≠ pyLower b.email :=
  C10_code_case_email_case.2 exState10 reachable_exState10
